import Mathlib

/-!
Verification of the Markdown-file creation/templating flow and the
file-deletion/trash actions of the `typora` Raycast extension
(`src/utils/createMarkdown.ts`, `src/components/FileListItem.tsx`).

Strings are embedded as `List Char` (the sequence of Unicode scalar values).
`replaceAll` models JavaScript `String.prototype.replace` with a global
literal pattern: it rewrites the leftmost non-overlapping occurrences,
scanning the original string only (replacement text is not re-scanned), and
expands the replacement string per match through `getSubstitution`, the
ECMA-262 GetSubstitution rules for a pattern with no capture groups
(`$$`, `$&`, dollar-backquote, dollar-quote; `$n` stays literal with zero
captures).  It is implemented with a fuel argument (initialised to the
string length, which bounds the number of scanning steps) so that it is
structurally recursive and can be evaluated by the kernel.
-/

namespace Typora

/-- Strings are modelled as lists of characters. -/
abbrev Str := List Char

/-- Placeholder token `{{title}}` from the template strings. -/
def titleTok : Str := "\x7b\x7btitle\x7d\x7d".data

/-- Placeholder token `{{date}}` from the template strings. -/
def dateTok : Str := "\x7b\x7bdate\x7d\x7d".data

/-- Placeholder token `{{tags}}` from the template strings. -/
def tagsTok : Str := "\x7b\x7btags\x7d\x7d".data

namespace templates

/-- The `empty` template (the empty string), from `createMarkdown.ts` line 25. -/
def empty : Str := "".data

/-- The `basic` template, from `createMarkdown.ts` lines 26-33. -/
def basic : Str :=
  "# \x7b\x7btitle\x7d\x7d\n\nCreated: \x7b\x7bdate\x7d\x7d\nTags: \x7b\x7btags\x7d\x7d\n\n## Content\n\n".data

/-- The `meeting` template, from `createMarkdown.ts` lines 34-51. -/
def meeting : Str :=
  "# Meeting: \x7b\x7btitle\x7d\x7d\n\nDate: \x7b\x7bdate\x7d\x7d\nParticipants: \nTags: \x7b\x7btags\x7d\x7d\n\n## Agenda\n\n- \n\n## Notes\n\n- \n\n## Action Items\n\n- [ ] \n".data

/-- The `blog` template, from `createMarkdown.ts` lines 52-63. -/
def blog : Str :=
  "---\ntitle: \"\x7b\x7btitle\x7d\x7d\"\ndate: \"\x7b\x7bdate\x7d\x7d\"\ntags: [\x7b\x7btags\x7d\x7d]\ndraft: true\n---\n\n# \x7b\x7btitle\x7d\x7d\n\n## Introduction\n\n".data

/-- The `project` template, from `createMarkdown.ts` lines 64-83. -/
def project : Str :=
  "# Project: \x7b\x7btitle\x7d\x7d\n\nStart Date: \x7b\x7bdate\x7d\x7d\nStatus: Planning\nTags: \x7b\x7btags\x7d\x7d\n\n## Overview\n\n## Goals\n\n- \n\n## Timeline\n\n- [ ] \n\n## Resources\n\n- \n".data

end templates

/-- ECMA-262 GetSubstitution for a regular expression with no capture
groups: expand the replacement string given the matched text and the parts
of the original subject before and after the match.  `$$` yields `$`, `$&`
the matched text, dollar-backquote (`\x60`) the preceding part,
dollar-quote (`\x27`) the following part; any other `$`-sequence — in
particular `$n`, since there are zero captures — is literal. -/
def getSubstitution (matched before after : Str) : Str → Str
  | [] => []
  | c :: rest =>
    if c = '$' then
      match rest with
      | [] => ['$']
      | d :: rest' =>
        if d = '$' then '$' :: getSubstitution matched before after rest'
        else if d = '&' then matched ++ getSubstitution matched before after rest'
        else if d = '\x60' then before ++ getSubstitution matched before after rest'
        else if d = '\x27' then after ++ getSubstitution matched before after rest'
        else '$' :: d :: getSubstitution matched before after rest'
    else
      c :: getSubstitution matched before after rest

/-- Fueled scanner for `replaceAll` over the original subject `s`: `pos` is
the current scan position and the last argument the remaining suffix
(`s.drop pos`).  One unit of fuel is spent per scanning step; since every
step consumes at least one character, fuel equal to the string's length
suffices.  At each match the replacement is expanded by `getSubstitution`
with the match's context in the original string. -/
def replaceAllAux (p r s : Str) : Nat → Nat → Str → Str
  | _, _, [] => []
  | 0, _, t => t
  | fuel + 1, pos, c :: cs =>
    if p ≠ [] ∧ (c :: cs).take p.length = p then
      getSubstitution p (s.take pos) (s.drop (pos + p.length)) r
        ++ replaceAllAux p r s fuel (pos + p.length) ((c :: cs).drop p.length)
    else
      c :: replaceAllAux p r s fuel (pos + 1) cs

/-- JavaScript `s.replace(pat, rep)` with a global literal pattern `pat` and
a string replacement `rep`: replace the leftmost non-overlapping occurrences
of `p` in `s` by the GetSubstitution expansion of `r`, continuing the scan
after each replaced occurrence. -/
def replaceAll (p r s : Str) : Str := replaceAllAux p r s s.length 0 s

/-- Reference scanner for the `$`-free case: literal splicing of the
replacement, no substitution expansion. -/
def replaceAllLitAux (p r : Str) : Nat → Str → Str
  | _, [] => []
  | 0, s => s
  | fuel + 1, c :: cs =>
    if p ≠ [] ∧ (c :: cs).take p.length = p then
      r ++ replaceAllLitAux p r fuel ((c :: cs).drop p.length)
    else
      c :: replaceAllLitAux p r fuel cs

/-- Literal global replacement: what `replaceAll` computes whenever the
replacement string contains no `$` (see `replaceAll_no_dollar`). -/
def replaceAllLit (p r s : Str) : Str := replaceAllLitAux p r s.length s

/-- On a `$`-free replacement string, GetSubstitution is the identity. -/
theorem getSubstitution_no_dollar (matched before after r : Str) (h : '$' ∉ r) :
    getSubstitution matched before after r = r := by
  induction r with
  | nil => rfl
  | cons c rest ih =>
    have hc : ¬(c = '$') := by
      intro he
      subst he
      exact h (List.mem_cons_self _ _)
    have hrest : '$' ∉ rest := fun hm => h (List.mem_cons_of_mem c hm)
    rw [getSubstitution.eq_def]
    simp only []
    rw [if_neg hc, ih hrest]

/-- With a `$`-free replacement, the faithful scanner coincides with the
literal one: no step depends on the scan position or the original string. -/
theorem replaceAllAux_no_dollar (p r s : Str) (h : '$' ∉ r) :
    ∀ (fuel pos : Nat) (t : Str),
      replaceAllAux p r s fuel pos t = replaceAllLitAux p r fuel t := by
  intro fuel
  induction fuel with
  | zero =>
    intro pos t
    cases t <;> rfl
  | succ f ih =>
    intro pos t
    cases t with
    | nil => rfl
    | cons c cs =>
      simp only [replaceAllAux, replaceAllLitAux]
      by_cases hc : p ≠ [] ∧ (c :: cs).take p.length = p
      · rw [if_pos hc, if_pos hc, getSubstitution_no_dollar _ _ _ _ h, ih]
      · rw [if_neg hc, if_neg hc, ih]

/-- With a `$`-free replacement, `replaceAll` is literal global
replacement. -/
theorem replaceAll_no_dollar (p r s : Str) (h : '$' ∉ r) :
    replaceAll p r s = replaceAllLit p r s :=
  replaceAllAux_no_dollar p r s h s.length 0 s

/-- The fuel argument of `replaceAllLitAux` is irrelevant as long as it is
at least the length of the subject string. -/
theorem replaceAllLitAux_congr (p r : Str) :
    ∀ (f f' : Nat) (s : Str), s.length ≤ f → s.length ≤ f' →
      replaceAllLitAux p r f s = replaceAllLitAux p r f' s := by
  intro f
  induction f with
  | zero =>
    intro f' s hs _
    have : s = [] := List.eq_nil_of_length_eq_zero (Nat.le_zero.mp hs)
    subst this
    cases f' <;> rfl
  | succ f ih =>
    intro f' s hf hf'
    cases s with
    | nil => cases f' <;> rfl
    | cons c cs =>
      cases f' with
      | zero => exact absurd hf' (by simp)
      | succ f' =>
        simp only [replaceAllLitAux]
        by_cases h : p ≠ [] ∧ (c :: cs).take p.length = p
        · rw [if_pos h, if_pos h]
          have hp : 1 ≤ p.length := List.length_pos.mpr h.1
          have hlen : ((c :: cs).drop p.length).length ≤ f := by
            simp only [List.length_drop, List.length_cons]
            have : cs.length + 1 ≤ f + 1 := by simpa using hf
            omega
          have hlen' : ((c :: cs).drop p.length).length ≤ f' := by
            simp only [List.length_drop, List.length_cons]
            have : cs.length + 1 ≤ f' + 1 := by simpa using hf'
            omega
          rw [ih f' _ hlen hlen']
        · rw [if_neg h, if_neg h]
          have h1 : cs.length ≤ f := by
            have : cs.length + 1 ≤ f + 1 := by simpa using hf
            omega
          have h2 : cs.length ≤ f' := by
            have : cs.length + 1 ≤ f' + 1 := by simpa using hf'
            omega
          rw [ih f' cs h1 h2]

/-- Unfolding equation of `replaceAllLit` on the empty string. -/
theorem replaceAllLit_nil (p r : Str) : replaceAllLit p r [] = [] := rfl

/-- Unfolding equation of `replaceAllLit` on a non-empty string. -/
theorem replaceAllLit_cons (p r : Str) (c : Char) (cs : Str) :
    replaceAllLit p r (c :: cs) =
      if p ≠ [] ∧ (c :: cs).take p.length = p then
        r ++ replaceAllLit p r ((c :: cs).drop p.length)
      else
        c :: replaceAllLit p r cs := by
  show replaceAllLitAux p r (cs.length + 1) (c :: cs) = _
  simp only [replaceAllLitAux]
  by_cases h : p ≠ [] ∧ (c :: cs).take p.length = p
  · rw [if_pos h, if_pos h]
    have hp : 1 ≤ p.length := List.length_pos.mpr h.1
    congr 1
    apply replaceAllLitAux_congr
    · simp only [List.length_drop, List.length_cons]; omega
    · exact Nat.le_refl _
  · rw [if_neg h, if_neg h]
    rfl

/-- Helper scanner for `hasSubstr`: does `p` occur starting at some position
of the subject string? -/
def hasSubstrAux (p : Str) : Str → Bool
  | [] => false
  | c :: cs => ((c :: cs).take p.length == p) || hasSubstrAux p cs

/-- Substring test: does `p` occur (contiguously) inside `s`?  Used to state
the spec's "the rendered content contains ..." properties. -/
def hasSubstr (s p : Str) : Bool := p.isEmpty || hasSubstrAux p s

/-- Tag normalization from `createMarkdown.ts` line 155:
`tag.startsWith('#') ? tag : '#' + tag`. -/
def normalizeTag (t : Str) : Str :=
  if t.head? = some '#' then t else '#' :: t

/-- The string substituted for `{{tags}}` (`createMarkdown.ts` line 159):
`formattedTags && formattedTags.length > 0 ? formattedTags.join(", ") : ""`
(the array `formattedTags` is always truthy, so only the length test
matters). -/
def renderedTags (tags : List Str) : Str :=
  if 0 < (tags.map normalizeTag).length then
    List.intercalate ", ".data (tags.map normalizeTag)
  else
    []

/-- Property lookup `templates[template as keyof typeof templates]`:
`none` models JavaScript `undefined` for an unknown key. -/
def templatesLookup (key : Str) : Option Str :=
  if key = "empty".data then some templates.empty
  else if key = "basic".data then some templates.basic
  else if key = "meeting".data then some templates.meeting
  else if key = "blog".data then some templates.blog
  else if key = "project".data then some templates.project
  else none

/-- Template selection from `createMarkdown.ts` line 150:
`templates[template as keyof typeof templates] || templates.basic`.
JavaScript `||` falls through on every falsy value, which includes both
`undefined` (unknown key) and the empty string (the value of the `empty`
template). -/
def getTemplate (key : Str) : Str :=
  match templatesLookup key with
  | some t => if t = [] then templates.basic else t
  | none => templates.basic

/-- The own property names of `Object.prototype`, which the property access
`templates[key]` reaches through the prototype chain of the object literal
`templates` when `key` is not an own key.  Every one of them is a truthy
non-string (a function, or for `__proto__` an accessor yielding
`Object.prototype` itself). -/
def objectProtoKeys : List Str :=
  ["constructor".data, "hasOwnProperty".data, "isPrototypeOf".data,
   "propertyIsEnumerable".data, "toLocaleString".data, "toString".data,
   "valueOf".data, "__defineGetter__".data, "__defineSetter__".data,
   "__lookupGetter__".data, "__lookupSetter__".data, "__proto__".data]

/-- Precisely when `key` is not an own property of `templates` but is
inherited from `Object.prototype`, the expression
`templates[key] || templates.basic` yields a truthy non-string, and the
subsequent `content.replace(...)` at line 157 throws a TypeError. -/
def templateAccessThrows (key : Str) : Bool :=
  (templatesLookup key).isNone && decide (key ∈ objectProtoKeys)

/-- Stringified TypeError raised by `content.replace` when `content` is an
inherited non-string member of `Object.prototype`. -/
def typeErrorMessage : Str := "TypeError: content.replace is not a function".data

/-- Placeholder substitution from `createMarkdown.ts` lines 156-159: the
selected template with `{{title}}`, then `{{date}}`, then `{{tags}}`
globally replaced, in that order. -/
def renderContent (key title : Str) (tags : List Str) (date : Str) : Str :=
  replaceAll tagsTok (renderedTags tags)
    (replaceAll dateTok date
      (replaceAll titleTok title (getTemplate key)))

/-- Filename sanitization from `createMarkdown.ts` line 130:
`title.replace(/[^a-z0-9]/gi, "-").toLowerCase()`.  Without the `u` flag and
under case-insensitive canonicalization, `[^a-z0-9]` matches exactly the
complement of the ASCII letters and digits, which is `Char.isAlphanum`;
`toLowerCase` then acts on a string of ASCII alphanumerics and hyphens,
where it agrees with `Char.toLower`. -/
def sanitizedTitle (title : Str) : Str :=
  (title.map fun c => if c.isAlphanum then c else '-').map Char.toLower

/-- Derived filename from `createMarkdown.ts` line 131: the sanitized title
with `.md` appended. -/
def fileName (title : Str) : Str := sanitizedTitle title ++ ".md".data

/-- A snapshot of the filesystem: an association list of regular files
(path, content) and a list of directories. -/
structure FS where
  files : List (Str × Str)
  dirs : List Str
deriving DecidableEq

/-- Association-list lookup by path. -/
def lookupIn (l : List (Str × Str)) (p : Str) : Option Str :=
  match l with
  | [] => none
  | e :: es => if e.1 = p then some e.2 else lookupIn es p

/-- Content of the regular file at `p`, if any. -/
def FS.lookupFile (fs : FS) (p : Str) : Option Str := lookupIn fs.files p

/-- Model of `fs.existsSync`: true if `p` is a regular file or a directory. -/
def FS.existsPath (fs : FS) (p : Str) : Bool :=
  (fs.lookupFile p).isSome || fs.dirs.contains p

/-- Model of `fs.mkdirSync(p, { recursive: true })`. -/
def FS.mkdir (fs : FS) (p : Str) : FS := { fs with dirs := p :: fs.dirs }

/-- Model of `fs.writeFileSync(p, c)` on a path that does not yet exist. -/
def FS.writeFile (fs : FS) (p c : Str) : FS := { fs with files := (p, c) :: fs.files }

/-- Error message of `fs.unlinkSync` on a missing path. -/
def enoentMessage : Str := "ENOENT: no such file or directory".data

/-- Model of `fs.unlinkSync`: removes the regular file at `p`, or throws
(`Except.error`) when no such file exists. -/
def FS.unlink (fs : FS) (p : Str) : Except Str FS :=
  if (fs.lookupFile p).isSome then
    Except.ok { fs with files := fs.files.filter fun e => !(e.1 == p) }
  else
    Except.error enoentMessage

/-- Toast severities used by the extension (`Toast.Style.Success` /
`Toast.Style.Failure`, and `showFailureToast`). -/
inductive ToastStyle where
  | success
  | failure
deriving DecidableEq

/-- A user-facing toast notification: style, title and message. -/
structure ToastMsg where
  style : ToastStyle
  title : Str
  message : Str
deriving DecidableEq

/-- One attempted launch action of the editor-launch fallback chain. -/
inductive OpenStep where
  | appOpen (editor : Str)
  | typoraDirect
  | defaultOpen
deriving DecidableEq

/-- Environment of one `openWithEditor` invocation: the configured editor
preference and the outcome of each fallible external call (`none` means the
call succeeds, `some m` means it throws with message `m`). -/
structure OpenEnv where
  prefEditor : Str
  appOpenFails : Option Str
  typoraPathExists : Bool
  typoraDirectFails : Option Str
  innerOpenFails : Option Str
  outerOpenFails : Option Str
deriving DecidableEq

/-- Result of `openWithEditor`: the launch attempts made, in order, and the
message of the exception escaping the function, if any. -/
structure OpenOutcome where
  steps : List OpenStep
  escaped : Option Str
deriving DecidableEq

/-- Editor-name resolution from `createMarkdown.ts` line 90:
`preferences.defaultEditor || "Typora"` (the empty string is falsy). -/
def resolveEditor (pref : Str) : Str :=
  if pref = [] then "Typora".data else pref

/-- The editor-launch fallback chain, `createMarkdown.ts` lines 87-116.
Control flow: try `open -a <editor>`; on failure (inner catch) try the
well-known Typora install path when the editor is `Typora` and that path
exists — an exception of this direct launch propagates to the outer catch —
otherwise call the platform default opener; the outer catch logs any
exception of the inner catch's body and calls the platform default opener
once more, unprotected, so a failure of that last call escapes the
function. -/
def openWithEditor (env : OpenEnv) : OpenOutcome :=
  match env.appOpenFails with
  | none => ⟨[OpenStep.appOpen (resolveEditor env.prefEditor)], none⟩
  | some _ =>
    if resolveEditor env.prefEditor = "Typora".data ∧ env.typoraPathExists = true then
      match env.typoraDirectFails with
      | none =>
        ⟨[OpenStep.appOpen (resolveEditor env.prefEditor), OpenStep.typoraDirect], none⟩
      | some _ =>
        match env.outerOpenFails with
        | none =>
          ⟨[OpenStep.appOpen (resolveEditor env.prefEditor), OpenStep.typoraDirect,
            OpenStep.defaultOpen], none⟩
        | some e =>
          ⟨[OpenStep.appOpen (resolveEditor env.prefEditor), OpenStep.typoraDirect,
            OpenStep.defaultOpen], some e⟩
    else
      match env.innerOpenFails with
      | none =>
        ⟨[OpenStep.appOpen (resolveEditor env.prefEditor), OpenStep.defaultOpen], none⟩
      | some _ =>
        match env.outerOpenFails with
        | none =>
          ⟨[OpenStep.appOpen (resolveEditor env.prefEditor), OpenStep.defaultOpen,
            OpenStep.defaultOpen], none⟩
        | some e =>
          ⟨[OpenStep.appOpen (resolveEditor env.prefEditor), OpenStep.defaultOpen,
            OpenStep.defaultOpen], some e⟩

/-- The `CreateMarkdownOptions` record (`createMarkdown.ts` lines 16-21).
`none` models an absent (`undefined`) optional field. -/
structure CreateOptions where
  title : Str
  template : Option Str
  tags : Option (List Str)
  targetPath : Option Str
deriving DecidableEq

/-- Environment of one `createMarkdownFileHelper` invocation: the initial
filesystem, the home directory, the formatted current date, whether
`fs.writeFileSync` throws, and the editor-launch environment. -/
structure CreateEnv where
  fs : FS
  home : Str
  date : Str
  writeFails : Option Str
  openEnv : OpenEnv
deriving DecidableEq

/-- Observable result of `createMarkdownFileHelper`: final filesystem, the
toasts shown in order, the returned string (`[]` is the empty-string failure
sentinel), and the editor-launch attempts made. -/
structure CreateResult where
  fs : FS
  toasts : List ToastMsg
  ret : Str
  openSteps : List OpenStep
deriving DecidableEq

/-- Model of `path.join(a, b)` for a directory and a relative member name. -/
def pathJoin (a b : Str) : Str := a ++ '/' :: b

/-- Model of `path.basename`: the part after the last slash (paths without a
trailing slash, which is the only way it is used here). -/
def basename (p : Str) : Str := (p.reverse.takeWhile fun c => c ≠ '/').reverse

/-- Base-directory selection from `createMarkdown.ts` line 127:
`targetPath || path.join(homedir(), "Desktop")` (the empty string is
falsy). -/
def baseDirOf (opts : CreateOptions) (home : Str) : Str :=
  match opts.targetPath with
  | some p => if p = [] then pathJoin home "Desktop".data else p
  | none => pathJoin home "Desktop".data

/-- The derived target path `path.join(baseDir, fileName)`
(`createMarkdown.ts` line 132). -/
def derivedPath (opts : CreateOptions) (home : Str) : Str :=
  pathJoin (baseDirOf opts home) (fileName opts.title)

/-- The directory-creation step, `createMarkdown.ts` lines 135-137. -/
def fsAfterMkdir (fs : FS) (baseDir : Str) : FS :=
  if fs.existsPath baseDir then fs else fs.mkdir baseDir

/-- The creation flow `createMarkdownFileHelper`, `createMarkdown.ts` lines
119-184: derive the target path; create the base directory if missing; if
the target path already exists, show a failure toast naming the filename and
return the empty-string sentinel; otherwise render the template, write the
file, show a success toast, and open the file with the editor chain.  Any
exception thrown inside the `try` block — modelled here for the TypeError
raised by `content.replace` when the template key reaches an inherited
`Object.prototype` member, for `fs.writeFileSync`, and for an exception
escaping `openWithEditor` — is caught, a failure toast with the stringified
error is shown, and the empty-string sentinel is returned. -/
def createMarkdownFileHelper (opts : CreateOptions) (env : CreateEnv) : CreateResult :=
  if (fsAfterMkdir env.fs (baseDirOf opts env.home)).existsPath (derivedPath opts env.home) then
    { fs := fsAfterMkdir env.fs (baseDirOf opts env.home),
      toasts := [⟨ToastStyle.failure, "File already exists".data, fileName opts.title⟩],
      ret := [],
      openSteps := [] }
  else if templateAccessThrows (opts.template.getD "basic".data) then
    { fs := fsAfterMkdir env.fs (baseDirOf opts env.home),
      toasts := [⟨ToastStyle.failure, "Failed to create Markdown file".data, typeErrorMessage⟩],
      ret := [],
      openSteps := [] }
  else
    match env.writeFails with
    | some err =>
      { fs := fsAfterMkdir env.fs (baseDirOf opts env.home),
        toasts := [⟨ToastStyle.failure, "Failed to create Markdown file".data, err⟩],
        ret := [],
        openSteps := [] }
    | none =>
      match (openWithEditor env.openEnv).escaped with
      | none =>
        { fs := (fsAfterMkdir env.fs (baseDirOf opts env.home)).writeFile
            (derivedPath opts env.home)
            (renderContent (opts.template.getD "basic".data) opts.title
              (opts.tags.getD []) env.date),
          toasts := [⟨ToastStyle.success, "Markdown file created".data,
            fileName opts.title ++ " in ".data ++ basename (baseDirOf opts env.home)⟩],
          ret := derivedPath opts env.home,
          openSteps := (openWithEditor env.openEnv).steps }
      | some err =>
        { fs := (fsAfterMkdir env.fs (baseDirOf opts env.home)).writeFile
            (derivedPath opts env.home)
            (renderContent (opts.template.getD "basic".data) opts.title
              (opts.tags.getD []) env.date),
          toasts := [⟨ToastStyle.success, "Markdown file created".data,
            fileName opts.title ++ " in ".data ++ basename (baseDirOf opts env.home)⟩,
            ⟨ToastStyle.failure, "Failed to create Markdown file".data, err⟩],
          ret := [],
          openSteps := (openWithEditor env.openEnv).steps }

/-- Result of a trash / delete action: final filesystem irrelevant pieces
aside, the toasts shown and how many times the `revalidate` callback ran. -/
structure TrashResult where
  toasts : List ToastMsg
  revalidateCount : Nat
deriving DecidableEq

/-- The move-to-trash handler `handleMoveToTrash`, `FileListItem.tsx` lines
85-104.  The host capability `moveToTrash(file.path)` is abstracted as its
outcome: `Except.error m` when it throws, `Except.ok b` when it resolves to
`b`.  A falsy result raises `Error("Failed to move file to trash")`, which
the catch turns into a failure toast carrying that error's message. -/
def handleMoveToTrash (cap : Except Str Bool) (name : Str) : TrashResult :=
  match cap with
  | Except.ok true =>
    { toasts := [⟨ToastStyle.success, "File moved to trash".data,
        name ++ " has been moved to trash".data⟩],
      revalidateCount := 1 }
  | Except.ok false =>
    { toasts := [⟨ToastStyle.failure, "Error moving file to trash".data,
        "Failed to move file to trash".data⟩],
      revalidateCount := 0 }
  | Except.error m =>
    { toasts := [⟨ToastStyle.failure, "Error moving file to trash".data, m⟩],
      revalidateCount := 0 }

/-- Result of the permanent-delete action. -/
structure DeleteResult where
  fs : FS
  unlinkCalled : Bool
  toasts : List ToastMsg
  revalidateCount : Nat
deriving DecidableEq

/-- The permanent-delete handler `confirmDelete`, `FileListItem.tsx` lines
56-82: only after the destructive-styled confirmation dialog resolves to
true is `fs.unlinkSync` called; success shows a success toast and runs
`revalidate()` once; a thrown failure shows a failure toast with the error's
message and does not run `revalidate`. -/
def confirmDelete (confirmed : Bool) (fs : FS) (filePath name : Str) : DeleteResult :=
  if confirmed then
    match fs.unlink filePath with
    | Except.ok fs' =>
      { fs := fs',
        unlinkCalled := true,
        toasts := [⟨ToastStyle.success, "File deleted".data,
          name ++ " has been deleted".data⟩],
        revalidateCount := 1 }
    | Except.error m =>
      { fs := fs,
        unlinkCalled := true,
        toasts := [⟨ToastStyle.failure, "Error deleting file".data, m⟩],
        revalidateCount := 0 }
  else
    { fs := fs, unlinkCalled := false, toasts := [], revalidateCount := 0 }

/-- Filtering out every entry whose key is `p` makes lookup of `p` fail. -/
theorem lookupIn_filter_self (l : List (Str × Str)) (p : Str) :
    lookupIn (l.filter fun e => !(e.1 == p)) p = none := by
  induction l with
  | nil => rfl
  | cons e es ih =>
    by_cases he : e.1 = p
    · simp [List.filter_cons, he, ih]
    · have hb : (e.1 == p) = false := beq_eq_false_iff_ne.mpr he
      simp [List.filter_cons, hb, lookupIn, if_neg he, ih]

/-- The directory-creation step never changes the regular files. -/
theorem fsAfterMkdir_files (fs : FS) (d : Str) : (fsAfterMkdir fs d).files = fs.files := by
  unfold fsAfterMkdir
  split <;> rfl

/-- File lookup is unaffected by the directory-creation step. -/
theorem fsAfterMkdir_lookupFile (fs : FS) (d p : Str) :
    (fsAfterMkdir fs d).lookupFile p = fs.lookupFile p := by
  unfold FS.lookupFile
  rw [fsAfterMkdir_files]

/-- Joining a non-trivial member onto a directory never returns the
directory itself. -/
theorem pathJoin_ne (a b : Str) : pathJoin a b ≠ a := by
  intro h
  have : (pathJoin a b).length = a.length := by rw [h]
  simp only [pathJoin, List.length_append, List.length_cons] at this
  omega

/-- Existence of the derived target path is unaffected by creating the base
directory. -/
theorem fsAfterMkdir_existsPath (fs : FS) (d n : Str) :
    (fsAfterMkdir fs d).existsPath (pathJoin d n) = fs.existsPath (pathJoin d n) := by
  unfold fsAfterMkdir
  split
  · rfl
  · simp only [FS.existsPath, FS.mkdir, FS.lookupFile, List.contains_cons]
    have : (pathJoin d n == d) = false := beq_eq_false_iff_ne.mpr (pathJoin_ne d n)
    rw [this]
    simp

/-- A replacement pass walks over any leading segment that avoids the
pattern's first character. -/
theorem replaceAllLit_append_of_head_notMem (p r s t : Str)
    (hs : ∀ c ∈ s, p.head? ≠ some c) :
    replaceAllLit p r (s ++ t) = s ++ replaceAllLit p r t := by
  induction s with
  | nil => rfl
  | cons c s' ih =>
    have hcond : ¬(p ≠ [] ∧ (c :: (s' ++ t)).take p.length = p) := by
      rintro ⟨hne, htake⟩
      cases p with
      | nil => exact hne rfl
      | cons ph pt =>
        rw [List.length_cons, List.take_succ_cons] at htake
        have hc : c = ph := (List.cons.injEq c _ ph pt).mp htake |>.1
        exact hs c (List.mem_cons_self c s') (by rw [hc]; rfl)
    rw [List.cons_append, replaceAllLit_cons, if_neg hcond,
      ih fun d hd => hs d (List.mem_cons_of_mem c hd)]
    rfl

/-- A replacement pass rewrites an occurrence of the pattern sitting after a
segment that avoids the pattern's first character, splicing in the
replacement verbatim. -/
theorem replaceAllLit_occurrence (p r s t : Str) (hp : p ≠ [])
    (hs : ∀ c ∈ s, p.head? ≠ some c) :
    replaceAllLit p r (s ++ (p ++ t)) = s ++ (r ++ replaceAllLit p r t) := by
  rw [replaceAllLit_append_of_head_notMem p r s (p ++ t) hs]
  congr 1
  cases p with
  | nil => exact absurd rfl hp
  | cons ph pt =>
    rw [List.cons_append, replaceAllLit_cons, if_pos ?hcond]
    case hcond =>
      refine ⟨List.cons_ne_nil ph pt, ?_⟩
      rw [List.length_cons, List.take_succ_cons, List.take_left]
    rw [List.length_cons, List.drop_succ_cons, List.drop_left]

/-- A replacement pass leaves a string without any occurrence of the
pattern unchanged. -/
theorem replaceAllLit_of_not_hasSubstr (p r s : Str) (h : hasSubstr s p = false) :
    replaceAllLit p r s = s := by
  have hp : p.isEmpty = false := by
    cases hq : p.isEmpty
    · rfl
    · rw [hasSubstr, hq, Bool.true_or] at h
      simp at h
  have haux : hasSubstrAux p s = false := by
    rw [hasSubstr, hp, Bool.false_or] at h
    exact h
  clear h
  induction s with
  | nil => rfl
  | cons c cs ih =>
    rw [hasSubstrAux, Bool.or_eq_false_iff] at haux
    obtain ⟨h1, h2⟩ := haux
    have hcond : ¬(p ≠ [] ∧ (c :: cs).take p.length = p) := by
      rintro ⟨-, htake⟩
      rw [beq_eq_false_iff_ne] at h1
      exact h1 htake
    rw [replaceAllLit_cons, if_neg hcond, ih h2]

/-- A string that has `t` spliced into it contains `t` as a substring. -/
theorem hasSubstr_append (u t v : Str) : hasSubstr (u ++ (t ++ v)) t = true := by
  cases ht : t.isEmpty
  · rw [hasSubstr, ht, Bool.false_or]
    induction u with
    | nil =>
      rw [List.nil_append]
      cases t with
      | nil => simp at ht
      | cons a ts =>
        rw [List.cons_append, hasSubstrAux, List.length_cons, List.take_succ_cons,
          List.take_left]
        simp
    | cons c u' ih =>
      rw [List.cons_append, hasSubstrAux, ih, Bool.or_true]
  · rw [hasSubstr, ht, Bool.true_or]

/-- Comparison of characters is comparison of their code points. -/
theorem char_le_iff (a b : Char) : a ≤ b ↔ a.toNat ≤ b.toNat := by
  rw [Char.le_def, UInt32.le_def, BitVec.le_def]
  exact Iff.rfl

/-- Each character produced by the sanitizer's per-character step — replace
a non-alphanumeric with a hyphen, then lowercase — is a lowercase ASCII
letter, an ASCII digit, or a hyphen. -/
theorem sanChar_ranges (a : Char) :
    ('a' ≤ Char.toLower (if a.isAlphanum then a else '-')
      ∧ Char.toLower (if a.isAlphanum then a else '-') ≤ 'z')
    ∨ ('0' ≤ Char.toLower (if a.isAlphanum then a else '-')
      ∧ Char.toLower (if a.isAlphanum then a else '-') ≤ '9')
    ∨ Char.toLower (if a.isAlphanum then a else '-') = '-' := by
  by_cases ha : a.isAlphanum = true
  · rw [if_pos ha]
    rw [Char.isAlphanum, Bool.or_eq_true, Char.isAlpha, Bool.or_eq_true] at ha
    rcases ha with (hu | hlo) | hd
    · rw [Char.isUpper, Bool.and_eq_true, decide_eq_true_eq, decide_eq_true_eq] at hu
      have h65 : 65 ≤ a.toNat := by
        have h := hu.1
        rw [ge_iff_le, UInt32.le_def, BitVec.le_def] at h
        exact h
      have h90 : a.toNat ≤ 90 := by
        have h := hu.2
        rw [UInt32.le_def, BitVec.le_def] at h
        exact h
      have ht : Char.toLower a = Char.ofNat (a.toNat + 32) := by
        simp only [Char.toLower]
        rw [if_pos ⟨h65, h90⟩]
      rw [ht]
      generalize a.toNat = n at h65 h90
      interval_cases n <;> decide
    · rw [Char.isLower, Bool.and_eq_true, decide_eq_true_eq, decide_eq_true_eq] at hlo
      have h97 : 97 ≤ a.toNat := by
        have h := hlo.1
        rw [ge_iff_le, UInt32.le_def, BitVec.le_def] at h
        exact h
      have h122 : a.toNat ≤ 122 := by
        have h := hlo.2
        rw [UInt32.le_def, BitVec.le_def] at h
        exact h
      have ht : Char.toLower a = a := by
        simp only [Char.toLower]
        rw [if_neg (by omega)]
      rw [ht]
      left
      constructor
      · rw [char_le_iff]
        exact h97
      · rw [char_le_iff]
        exact h122
    · rw [Char.isDigit, Bool.and_eq_true, decide_eq_true_eq, decide_eq_true_eq] at hd
      have h48 : 48 ≤ a.toNat := by
        have h := hd.1
        rw [ge_iff_le, UInt32.le_def, BitVec.le_def] at h
        exact h
      have h57 : a.toNat ≤ 57 := by
        have h := hd.2
        rw [UInt32.le_def, BitVec.le_def] at h
        exact h
      have ht : Char.toLower a = a := by
        simp only [Char.toLower]
        rw [if_neg (by omega)]
      rw [ht]
      right
      left
      constructor
      · rw [char_le_iff]
        exact h48
      · rw [char_le_iff]
        exact h57
  · rw [if_neg ha]
    decide

/-- C4: the derived filename is exactly the title with every character that
is not an ASCII letter or digit replaced by a hyphen, then lowercased, with
`.md` appended; every character of the part before the extension is a
lowercase ASCII letter, a digit, or a hyphen. -/
theorem claim_C4 (title : Str) :
    fileName title
      = (title.map fun c => if c.isAlphanum then c else '-').map Char.toLower ++ ".md".data
    ∧ ∀ c ∈ sanitizedTitle title,
        ('a' ≤ c ∧ c ≤ 'z') ∨ ('0' ≤ c ∧ c ≤ '9') ∨ c = '-' := by
  refine ⟨rfl, ?_⟩
  intro c hc
  unfold sanitizedTitle at hc
  rcases List.mem_map.mp hc with ⟨b, hb, rfl⟩
  rcases List.mem_map.mp hb with ⟨a, -, rfl⟩
  exact sanChar_ranges a

/-- Counterexample to C5: for the tag list `["$&"]` the joined normalized
list is `#$&`, but JavaScript expands `$&` in the replacement string to the
matched text, so the program replaces `\x7b\x7btags\x7d\x7d` with
`#\x7b\x7btags\x7d\x7d` — not with the joined normalized list, which never
appears in the rendered content. -/
theorem claim_C5_counterexample :
    renderedTags ["$&".data] = "#$&".data
    ∧ hasSubstr (renderContent "basic".data "T".data ["$&".data] "2024-01-01".data)
        "#$&".data = false
    ∧ hasSubstr (renderContent "basic".data "T".data ["$&".data] "2024-01-01".data)
        "#\x7b\x7btags\x7d\x7d".data = true := by
  decide

/-- C5 (amended): every tag entry is normalized to start with `#` before
substitution; each occurrence of `\x7b\x7btags\x7d\x7d` is replaced by the
GetSubstitution expansion of the comma-and-space-joined normalized list (or
of the empty string for an empty list), which is the joined list itself
whenever it contains no `$` character; the `basic`/`"My Note"`/
`["work", "#urgent"]` example — whose tags contain no `$` — renders content
containing `Tags: #work, #urgent` with no `\x7b\x7b` token remaining. -/
theorem claim_C5_amended (key title date : Str) (tags : List Str) :
    (∀ s ∈ tags.map normalizeTag, s.head? = some '#')
    ∧ renderContent key title tags date
        = replaceAll tagsTok
            (if 0 < tags.length then
              List.intercalate ", ".data (tags.map normalizeTag)
             else [])
            (replaceAll dateTok date (replaceAll titleTok title (getTemplate key)))
    ∧ ('$' ∉ renderedTags tags → ∀ matched before after,
        getSubstitution matched before after (renderedTags tags) = renderedTags tags)
    ∧ hasSubstr (renderContent "basic".data "My Note".data ["work".data, "#urgent".data]
          "2024-01-01".data) "Tags: #work, #urgent".data = true
    ∧ hasSubstr (renderContent "basic".data "My Note".data ["work".data, "#urgent".data]
          "2024-01-01".data) "\x7b\x7b".data = false := by
  refine ⟨?_, ?_, ?_, by decide, by decide⟩
  · intro s hs
    rcases List.mem_map.mp hs with ⟨t, -, rfl⟩
    unfold normalizeTag
    by_cases hh : t.head? = some '#'
    · rw [if_pos hh]
      exact hh
    · rw [if_neg hh]
      rfl
  · unfold renderContent renderedTags
    rw [List.length_map]
  · intro hd matched before after
    exact getSubstitution_no_dollar matched before after _ hd

/-- Witness for the amended C5 at a concrete `$`-free tag list. -/
theorem claim_C5_amended_witness :
    ('$' ∉ renderedTags ["work".data])
    ∧ getSubstitution "\x7b\x7btags\x7d\x7d".data "b".data "a".data
        (renderedTags ["work".data]) = renderedTags ["work".data] :=
  ⟨by decide,
   (claim_C5_amended "basic".data "T".data "2024-01-01".data ["work".data]).2.2.1
     (by decide) "\x7b\x7btags\x7d\x7d".data "b".data "a".data⟩

/-- Counterexample to C6: a title containing a `{{date}}` token is not
preserved verbatim — the later date-replacement pass rewrites the token
inside the inserted title, so the rendered content does not contain the
title's characters as given (it contains the date spliced in instead). -/
theorem claim_C6_counterexample :
    hasSubstr
      (renderContent "basic".data "A\x7b\x7bdate\x7d\x7dB".data [] "2024-01-05".data)
      "A\x7b\x7bdate\x7d\x7dB".data = false
    ∧ hasSubstr
        (renderContent "basic".data "A\x7b\x7bdate\x7d\x7dB".data [] "2024-01-05".data)
        "A2024-01-05B".data = true := by
  decide

/-- C6 (amended): the `\x7b\x7btitle\x7d\x7d` replacement step inserts the
GetSubstitution expansion of the title — the title verbatim exactly when it
contains no `$` pattern — and the subsequent `\x7b\x7bdate\x7d\x7d` and
`\x7b\x7btags\x7d\x7d` passes run over the content with the title already
inserted, so a title containing those tokens is further transformed.  For a
title containing neither `\x7b` (which rules out placeholder tokens inside
or across the title's boundaries) nor `$` (which rules out substitution
expansion), the rendered content contains the title verbatim, shown here
for the `basic` template with a fixed date and no tags. -/
theorem claim_C6_amended (title : Str) (h : '\x7b' ∉ title) (h2 : '$' ∉ title) :
    renderContent "basic".data title [] "2024-01-05".data
      = "# ".data ++ (title ++ "\n\nCreated: 2024-01-05\nTags: \n\n## Content\n\n".data)
    ∧ hasSubstr (renderContent "basic".data title [] "2024-01-05".data) title = true := by
  have hnb : ∀ c ∈ "# ".data ++ title, c ≠ '\x7b' := by
    intro c hc
    rcases List.mem_append.mp hc with h1 | h2
    · intro he
      rw [he] at h1
      exact absurd h1 (by decide)
    · intro he
      rw [he] at h2
      exact h h2
  have hsD : ∀ c ∈ "# ".data ++ title, dateTok.head? ≠ some c := by
    intro c hc he
    exact hnb c hc (Option.some.inj he).symm
  have hsT : ∀ c ∈ "# ".data ++ title, tagsTok.head? ≠ some c := by
    intro c hc he
    exact hnb c hc (Option.some.inj he).symm
  have heq : renderContent "basic".data title [] "2024-01-05".data
      = "# ".data ++ (title ++ "\n\nCreated: 2024-01-05\nTags: \n\n## Content\n\n".data) := by
    unfold renderContent
    rw [replaceAll_no_dollar tagsTok (renderedTags []) _ (by decide),
      replaceAll_no_dollar dateTok "2024-01-05".data _ (by decide),
      replaceAll_no_dollar titleTok title _ h2]
    rw [show getTemplate "basic".data
          = "# ".data
            ++ (titleTok
              ++ "\n\nCreated: \x7b\x7bdate\x7d\x7d\nTags: \x7b\x7btags\x7d\x7d\n\n## Content\n\n".data)
        from by decide]
    rw [replaceAllLit_occurrence titleTok title "# ".data _ (by decide) (by decide)]
    rw [replaceAllLit_of_not_hasSubstr titleTok title
        "\n\nCreated: \x7b\x7bdate\x7d\x7d\nTags: \x7b\x7btags\x7d\x7d\n\n## Content\n\n".data
        (by decide)]
    rw [← List.append_assoc]
    rw [replaceAllLit_append_of_head_notMem dateTok "2024-01-05".data ("# ".data ++ title) _ hsD]
    rw [show replaceAllLit dateTok "2024-01-05".data
          "\n\nCreated: \x7b\x7bdate\x7d\x7d\nTags: \x7b\x7btags\x7d\x7d\n\n## Content\n\n".data
          = "\n\nCreated: 2024-01-05\nTags: \x7b\x7btags\x7d\x7d\n\n## Content\n\n".data
        from by decide]
    rw [replaceAllLit_append_of_head_notMem tagsTok (renderedTags []) ("# ".data ++ title) _ hsT]
    rw [show replaceAllLit tagsTok (renderedTags [])
          "\n\nCreated: 2024-01-05\nTags: \x7b\x7btags\x7d\x7d\n\n## Content\n\n".data
          = "\n\nCreated: 2024-01-05\nTags: \n\n## Content\n\n".data
        from by decide]
    rw [List.append_assoc]
  refine ⟨heq, ?_⟩
  rw [heq]
  exact hasSubstr_append "# ".data title _

/-- Witness for the amended C6 at the concrete brace-free title `My Note`. -/
theorem claim_C6_amended_witness :
    ('\x7b' ∉ "My Note".data)
    ∧ ('$' ∉ "My Note".data)
    ∧ hasSubstr (renderContent "basic".data "My Note".data [] "2024-01-05".data)
        "My Note".data = true :=
  ⟨by decide, by decide, (claim_C6_amended "My Note".data (by decide) (by decide)).2⟩

/-- C8: in `handleMoveToTrash`, a falsy capability result is converted to a
thrown error: a failure toast carrying that error's message is shown, the
`revalidate` callback does not run, and the success path is not taken; a
thrown capability error behaves the same with its own message; only a truthy
result shows the success toast and runs `revalidate`, exactly once. -/
theorem claim_C8 (name m : Str) :
    (handleMoveToTrash (Except.ok false) name).revalidateCount = 0
    ∧ (handleMoveToTrash (Except.ok false) name).toasts =
        [⟨ToastStyle.failure, "Error moving file to trash".data,
          "Failed to move file to trash".data⟩]
    ∧ (handleMoveToTrash (Except.error m) name).revalidateCount = 0
    ∧ (handleMoveToTrash (Except.error m) name).toasts =
        [⟨ToastStyle.failure, "Error moving file to trash".data, m⟩]
    ∧ (handleMoveToTrash (Except.ok true) name).revalidateCount = 1
    ∧ (handleMoveToTrash (Except.ok true) name).toasts =
        [⟨ToastStyle.success, "File moved to trash".data,
          name ++ " has been moved to trash".data⟩] :=
  ⟨rfl, rfl, rfl, rfl, rfl, rfl⟩

/-- C9: `confirmDelete` never calls `fs.unlinkSync` without confirmation;
a confirmed deletion of an existing file removes it, shows the success toast
and runs `revalidate` exactly once; a confirmed deletion whose unlink throws
shows a failure toast with the underlying error message and does not run
`revalidate`. -/
theorem claim_C9 (fs : FS) (filePath name c : Str) :
    (confirmDelete false fs filePath name).unlinkCalled = false
    ∧ (confirmDelete false fs filePath name).fs = fs
    ∧ (confirmDelete false fs filePath name).revalidateCount = 0
    ∧ (confirmDelete false fs filePath name).toasts = []
    ∧ (fs.lookupFile filePath = some c →
        (confirmDelete true fs filePath name).unlinkCalled = true
        ∧ (confirmDelete true fs filePath name).fs.lookupFile filePath = none
        ∧ (confirmDelete true fs filePath name).revalidateCount = 1
        ∧ (confirmDelete true fs filePath name).toasts =
            [⟨ToastStyle.success, "File deleted".data,
              name ++ " has been deleted".data⟩])
    ∧ (fs.lookupFile filePath = none →
        (confirmDelete true fs filePath name).fs = fs
        ∧ (confirmDelete true fs filePath name).revalidateCount = 0
        ∧ (confirmDelete true fs filePath name).toasts =
            [⟨ToastStyle.failure, "Error deleting file".data, enoentMessage⟩]) := by
  refine ⟨rfl, rfl, rfl, rfl, ?_, ?_⟩
  · intro h
    have hs : (fs.lookupFile filePath).isSome = true := by rw [h]; rfl
    have hu : fs.unlink filePath =
        Except.ok { fs with files := fs.files.filter fun e => !(e.1 == filePath) } := by
      unfold FS.unlink
      rw [if_pos hs]
    simp [confirmDelete, hu, FS.lookupFile, lookupIn_filter_self]
  · intro h
    have hs : (fs.lookupFile filePath).isSome = false := by rw [h]; rfl
    have hu : fs.unlink filePath = Except.error enoentMessage := by
      unfold FS.unlink
      rw [if_neg (by rw [hs]; exact Bool.false_ne_true)]
    simp [confirmDelete, hu]

/-- Witness for C9 at a concrete filesystem holding one file. -/
theorem claim_C9_witness :
    (FS.lookupFile ⟨[("/a".data, "x".data)], []⟩ "/a".data = some "x".data)
    ∧ (confirmDelete true ⟨[("/a".data, "x".data)], []⟩ "/a".data "a".data).revalidateCount = 1
    ∧ (confirmDelete true ⟨[("/a".data, "x".data)], []⟩ "/a".data "a".data).fs.lookupFile "/a".data
        = none :=
  ⟨by decide,
   ((claim_C9 ⟨[("/a".data, "x".data)], []⟩ "/a".data "a".data "x".data).2.2.2.2.1
      (by decide)).2.2.1,
   ((claim_C9 ⟨[("/a".data, "x".data)], []⟩ "/a".data "a".data "x".data).2.2.2.2.1
      (by decide)).2.1⟩

/-- C10: an explicitly provided but empty `targetPath` behaves exactly like
an absent one — the empty string is falsy in `targetPath || join(home,
"Desktop")` — so the file is created under the Desktop fallback directory. -/
theorem claim_C10 (title : Str) (template : Option Str) (tags : Option (List Str))
    (env : CreateEnv) :
    createMarkdownFileHelper ⟨title, template, tags, some []⟩ env
      = createMarkdownFileHelper ⟨title, template, tags, none⟩ env
    ∧ baseDirOf ⟨title, template, tags, some []⟩ env.home
        = pathJoin env.home "Desktop".data := ⟨rfl, rfl⟩

/-- C7: when the named-application launch fails, the resolved editor is the
default `Typora`, and the well-known Typora install path does not exist, the
chain proceeds directly to the platform default opener — the guarded direct
launch is skipped, and no exception escapes the steps before the default
opener (when the default opener itself succeeds, the whole launcher returns
normally after exactly those two attempts). -/
theorem claim_C7 (env : OpenEnv) (e : Str)
    (happ : env.appOpenFails = some e)
    (hed : resolveEditor env.prefEditor = "Typora".data)
    (hpath : env.typoraPathExists = false) :
    (openWithEditor env).steps.take 2
      = [OpenStep.appOpen "Typora".data, OpenStep.defaultOpen]
    ∧ OpenStep.typoraDirect ∉ (openWithEditor env).steps
    ∧ (env.innerOpenFails = none →
        openWithEditor env = ⟨[OpenStep.appOpen "Typora".data, OpenStep.defaultOpen], none⟩) := by
  cases hi : env.innerOpenFails with
  | none =>
    simp [openWithEditor, hed, happ, hpath, hi]
  | some e2 =>
    cases ho : env.outerOpenFails <;>
      simp [openWithEditor, hed, happ, hpath, hi, ho]

/-- C1: when the derived target path already exists, the creation flow
performs no write (the stored files, in particular the conflicting file's
content, are unchanged), shows exactly one failure toast whose message is
the conflicting filename, returns the empty-string sentinel, and never
reaches the editor-launch chain. -/
theorem claim_C1 (opts : CreateOptions) (env : CreateEnv)
    (h : env.fs.existsPath (derivedPath opts env.home) = true) :
    (createMarkdownFileHelper opts env).fs.files = env.fs.files
    ∧ (∀ c, env.fs.lookupFile (derivedPath opts env.home) = some c →
        (createMarkdownFileHelper opts env).fs.lookupFile (derivedPath opts env.home) = some c)
    ∧ (createMarkdownFileHelper opts env).toasts =
        [⟨ToastStyle.failure, "File already exists".data, fileName opts.title⟩]
    ∧ (createMarkdownFileHelper opts env).ret = []
    ∧ (createMarkdownFileHelper opts env).openSteps = [] := by
  have hex : (fsAfterMkdir env.fs (baseDirOf opts env.home)).existsPath
      (derivedPath opts env.home) = true := by
    rw [show derivedPath opts env.home
          = pathJoin (baseDirOf opts env.home) (fileName opts.title) from rfl,
        fsAfterMkdir_existsPath]
    exact h
  have hc : createMarkdownFileHelper opts env =
      { fs := fsAfterMkdir env.fs (baseDirOf opts env.home),
        toasts := [⟨ToastStyle.failure, "File already exists".data, fileName opts.title⟩],
        ret := [],
        openSteps := [] } := by
    unfold createMarkdownFileHelper
    rw [if_pos hex]
  rw [hc]
  refine ⟨fsAfterMkdir_files env.fs (baseDirOf opts env.home), ?_, rfl, rfl, rfl⟩
  intro c hcc
  rw [fsAfterMkdir_lookupFile]
  exact hcc

/-- Witness for C1: a concrete store already holding the derived path
`/d/a.md`. -/
theorem claim_C1_witness :
    (FS.existsPath ⟨[(pathJoin "/d".data (fileName "a".data), "old".data)], []⟩
        (derivedPath ⟨"a".data, none, none, some "/d".data⟩ "/h".data) = true)
    ∧ (createMarkdownFileHelper ⟨"a".data, none, none, some "/d".data⟩
        ⟨⟨[(pathJoin "/d".data (fileName "a".data), "old".data)], []⟩, "/h".data,
          "2024-01-05".data, none, ⟨[], none, false, none, none, none⟩⟩).ret = [] :=
  ⟨by decide,
   (claim_C1 ⟨"a".data, none, none, some "/d".data⟩
      ⟨⟨[(pathJoin "/d".data (fileName "a".data), "old".data)], []⟩, "/h".data,
        "2024-01-05".data, none, ⟨[], none, false, none, none, none⟩⟩
      (by decide)).2.2.2.1⟩

/-- Counterexample to C2: with the file freshly written and every
default-open attempt throwing (the final default-open fallback throws), the
creation flow does show a user-facing failure toast and returns the
empty-string sentinel instead of reporting success — the escaping exception
is caught by `createMarkdownFileHelper`'s own catch, contradicting the
claim that such a failure is only logged and swallowed. -/
theorem claim_C2_counterexample :
    (createMarkdownFileHelper ⟨"note".data, none, none, none⟩
        ⟨⟨[], []⟩, "/h".data, "2024-01-05".data, none,
          ⟨[], some "e1".data, false, none, some "e2".data, some "e3".data⟩⟩).ret = []
    ∧ (⟨ToastStyle.failure, "Failed to create Markdown file".data, "e3".data⟩ : ToastMsg)
        ∈ (createMarkdownFileHelper ⟨"note".data, none, none, none⟩
            ⟨⟨[], []⟩, "/h".data, "2024-01-05".data, none,
              ⟨[], some "e1".data, false, none, some "e2".data, some "e3".data⟩⟩).toasts := by
  decide

/-- C2 (amended): when the default-open attempt at the end of the named-app
failure path throws, the error is logged and the default opener is retried
once from the outer catch; only if that retry succeeds is the failure
swallowed with creation still reporting success.  If the retry also throws,
the exception escapes the launcher into the creation routine's catch, which
shows a failure toast and returns the empty-string sentinel, even though the
file remains written on disk. -/
theorem claim_C2_amended (opts : CreateOptions) (env : CreateEnv) (e1 e2 : Str)
    (hex : env.fs.existsPath (derivedPath opts env.home) = false)
    (hw : env.writeFails = none)
    (happ : env.openEnv.appOpenFails = some e1)
    (hty : ¬(resolveEditor env.openEnv.prefEditor = "Typora".data
              ∧ env.openEnv.typoraPathExists = true))
    (hinner : env.openEnv.innerOpenFails = some e2)
    (hT : templateAccessThrows (opts.template.getD "basic".data) = false) :
    (env.openEnv.outerOpenFails = none →
      (createMarkdownFileHelper opts env).ret = derivedPath opts env.home
      ∧ (createMarkdownFileHelper opts env).toasts =
          [⟨ToastStyle.success, "Markdown file created".data,
            fileName opts.title ++ " in ".data ++ basename (baseDirOf opts env.home)⟩])
    ∧ (∀ e3, env.openEnv.outerOpenFails = some e3 →
        (createMarkdownFileHelper opts env).ret = []
        ∧ (createMarkdownFileHelper opts env).toasts =
            [⟨ToastStyle.success, "Markdown file created".data,
              fileName opts.title ++ " in ".data ++ basename (baseDirOf opts env.home)⟩,
             ⟨ToastStyle.failure, "Failed to create Markdown file".data, e3⟩]
        ∧ (createMarkdownFileHelper opts env).fs.lookupFile (derivedPath opts env.home)
            = some (renderContent (opts.template.getD "basic".data) opts.title
                (opts.tags.getD []) env.date)) := by
  have hex1 : (fsAfterMkdir env.fs (baseDirOf opts env.home)).existsPath
      (derivedPath opts env.home) = false := by
    rw [show derivedPath opts env.home
          = pathJoin (baseDirOf opts env.home) (fileName opts.title) from rfl,
        fsAfterMkdir_existsPath]
    exact hex
  constructor
  · intro ho
    have hoe : (openWithEditor env.openEnv).escaped = none := by
      simp [openWithEditor, happ, hty, hinner, ho]
    have hc : createMarkdownFileHelper opts env =
        { fs := (fsAfterMkdir env.fs (baseDirOf opts env.home)).writeFile
            (derivedPath opts env.home)
            (renderContent (opts.template.getD "basic".data) opts.title
              (opts.tags.getD []) env.date),
          toasts := [⟨ToastStyle.success, "Markdown file created".data,
            fileName opts.title ++ " in ".data ++ basename (baseDirOf opts env.home)⟩],
          ret := derivedPath opts env.home,
          openSteps := (openWithEditor env.openEnv).steps } := by
      unfold createMarkdownFileHelper
      rw [if_neg (by rw [hex1]; exact Bool.false_ne_true),
        if_neg (by rw [hT]; exact Bool.false_ne_true), hw, hoe]
    rw [hc]
    exact ⟨rfl, rfl⟩
  · intro e3 ho
    have hoe : (openWithEditor env.openEnv).escaped = some e3 := by
      simp [openWithEditor, happ, hty, hinner, ho]
    have hc : createMarkdownFileHelper opts env =
        { fs := (fsAfterMkdir env.fs (baseDirOf opts env.home)).writeFile
            (derivedPath opts env.home)
            (renderContent (opts.template.getD "basic".data) opts.title
              (opts.tags.getD []) env.date),
          toasts := [⟨ToastStyle.success, "Markdown file created".data,
            fileName opts.title ++ " in ".data ++ basename (baseDirOf opts env.home)⟩,
            ⟨ToastStyle.failure, "Failed to create Markdown file".data, e3⟩],
          ret := [],
          openSteps := (openWithEditor env.openEnv).steps } := by
      unfold createMarkdownFileHelper
      rw [if_neg (by rw [hex1]; exact Bool.false_ne_true),
        if_neg (by rw [hT]; exact Bool.false_ne_true), hw, hoe]
    rw [hc]
    refine ⟨rfl, rfl, ?_⟩
    simp [FS.writeFile, FS.lookupFile, lookupIn]

/-- Witness for the amended C2 at a concrete environment in which both
default-open attempts throw. -/
theorem claim_C2_amended_witness :
    ((⟨⟨[], []⟩, "/h".data, "2024-01-05".data, none,
        ⟨[], some "e1".data, false, none, some "e2".data, some "e3".data⟩⟩ :
          CreateEnv).openEnv.outerOpenFails = some "e3".data)
    ∧ (createMarkdownFileHelper ⟨"note".data, none, none, none⟩
        ⟨⟨[], []⟩, "/h".data, "2024-01-05".data, none,
          ⟨[], some "e1".data, false, none, some "e2".data, some "e3".data⟩⟩).ret = [] :=
  ⟨by decide,
   ((claim_C2_amended ⟨"note".data, none, none, none⟩
      ⟨⟨[], []⟩, "/h".data, "2024-01-05".data, none,
        ⟨[], some "e1".data, false, none, some "e2".data, some "e3".data⟩⟩
      "e1".data "e2".data (by decide) (by decide) (by decide) (by decide)
      (by decide) (by decide)).2 "e3".data (by decide)).1⟩

/-- Counterexample to C3: the template lookup `templates[key] ||
templates.basic` treats the `empty` template — the empty string, a falsy
value — like an unknown key, so key `empty` selects the `basic` template and
renders the `basic` rendering, not the empty content the claim asserts. -/
theorem claim_C3_counterexample :
    getTemplate "empty".data = templates.basic
    ∧ templates.empty = []
    ∧ renderContent "empty".data "T".data [] "2024-01-01".data
        = renderContent "basic".data "T".data [] "2024-01-01".data
    ∧ renderContent "empty".data "T".data [] "2024-01-01".data ≠ [] := by
  decide

/-- C3 (amended): for every key outside the template table's own keys
`basic`, `meeting`, `blog`, `project` and outside `Object.prototype`'s
inherited members, the renderer falls back to the `basic` template — this
covers unknown keys, the absent key, and also the supported key `empty`,
whose template is the empty string and hence falsy in the `||` fallback;
each of the four non-empty keys selects the template named by that key.
Keys naming inherited `Object.prototype` members (such as `toString`)
instead yield a truthy non-string, so the creation flow throws a TypeError
at `content.replace` and fails with a failure toast and the empty-string
sentinel, writing nothing. -/
theorem claim_C3_amended (key title date : Str) (tags : List Str)
    (h : key ∉ ["basic".data, "meeting".data, "blog".data, "project".data])
    (h2 : key ∉ objectProtoKeys) :
    renderContent key title tags date = renderContent "basic".data title tags date
    ∧ templateAccessThrows key = false
    ∧ getTemplate "basic".data = templates.basic
    ∧ getTemplate "meeting".data = templates.meeting
    ∧ getTemplate "blog".data = templates.blog
    ∧ getTemplate "project".data = templates.project
    ∧ (∀ k ∈ objectProtoKeys, templateAccessThrows k = true)
    ∧ (∀ (opts : CreateOptions) (env : CreateEnv),
        opts.template = some "toString".data →
        (fsAfterMkdir env.fs (baseDirOf opts env.home)).existsPath
          (derivedPath opts env.home) = false →
        (createMarkdownFileHelper opts env).ret = []
        ∧ (createMarkdownFileHelper opts env).fs.files = env.fs.files
        ∧ (createMarkdownFileHelper opts env).toasts =
            [⟨ToastStyle.failure, "Failed to create Markdown file".data,
              typeErrorMessage⟩]) := by
  simp only [List.mem_cons, List.mem_singleton, not_or] at h
  have hg : getTemplate key = templates.basic := by
    by_cases he : key = "empty".data
    · rw [he]
      decide
    · unfold getTemplate templatesLookup
      rw [if_neg he, if_neg h.1, if_neg h.2.1, if_neg h.2.2.1, if_neg h.2.2.2.1]
  refine ⟨?_, ?_, by decide, by decide, by decide, by decide, by decide, ?_⟩
  · unfold renderContent
    rw [hg, show getTemplate "basic".data = templates.basic from by decide]
  · have hc : decide (key ∈ objectProtoKeys) = false := decide_eq_false h2
    unfold templateAccessThrows
    rw [hc, Bool.and_false]
  · intro opts env hT hexf
    have hthrow : templateAccessThrows (opts.template.getD "basic".data) = true := by
      rw [hT]
      decide
    have hc : createMarkdownFileHelper opts env =
        { fs := fsAfterMkdir env.fs (baseDirOf opts env.home),
          toasts := [⟨ToastStyle.failure, "Failed to create Markdown file".data,
            typeErrorMessage⟩],
          ret := [],
          openSteps := [] } := by
      unfold createMarkdownFileHelper
      rw [if_neg (by rw [hexf]; exact Bool.false_ne_true), if_pos hthrow]
    rw [hc]
    exact ⟨rfl, fsAfterMkdir_files env.fs (baseDirOf opts env.home), rfl⟩

/-- Witness for the amended C3 at the concrete unknown key `nope`. -/
theorem claim_C3_amended_witness :
    ("nope".data ∉ ["basic".data, "meeting".data, "blog".data, "project".data])
    ∧ ("nope".data ∉ objectProtoKeys)
    ∧ renderContent "nope".data "T".data [] "2024-01-01".data
        = renderContent "basic".data "T".data [] "2024-01-01".data :=
  ⟨by decide, by decide,
   (claim_C3_amended "nope".data "T".data "2024-01-01".data [] (by decide) (by decide)).1⟩

/-- Witness for C7 at a concrete launch environment. -/
theorem claim_C7_witness :
    ((⟨[], some "e".data, false, none, none, none⟩ : OpenEnv).appOpenFails = some "e".data)
    ∧ resolveEditor ([] : Str) = "Typora".data
    ∧ (openWithEditor ⟨[], some "e".data, false, none, none, none⟩).steps.take 2
        = [OpenStep.appOpen "Typora".data, OpenStep.defaultOpen] :=
  ⟨by decide, by decide,
   (claim_C7 ⟨[], some "e".data, false, none, none, none⟩ "e".data
      (by decide) (by decide) (by decide)).1⟩

end Typora
